import Mathlib

/-!
Verification of the LaTeX MCP server (`server.py`): workspace-path sandboxing
(`resolve_workspace_path`), the command executor (`run_command_async`) and the
three tools (`build_latex`, `clean_latex`, `read_latex_log`).

Shallow embedding conventions:
* A POSIX absolute path is a `PPath`: a list of path segments together with a
  flag recording the special two-slash anchor `//` that POSIX (and Python's
  `pathlib`) keeps distinct from `/`.
* `Path(user_path)` parsing, `Path.resolve()` (lexical `.`/`..` normalization;
  the filesystem is assumed symlink-free), `Path.relative_to`, `Path.parent`,
  `Path.name`, `Path.stem` and `str(Path)` are embedded as executable
  functions below.
* The filesystem is an oracle `PPath → Bool` for existence tests and
  `PPath → String` for (permissive) file reads; the spawned subprocess is an
  oracle `String → PPath → String` giving the transcript the executor
  returns.  Each tool returns its report string together with the list of
  side effects (existence checks, file reads, process executions) it performs,
  in order.
-/

/-- Number of leading `'/'` characters of a character list. -/
def leadingSlashes (l : List Char) : Nat :=
  (l.takeWhile (fun c => c = '/')).length

/-- Split a character list into the `'/'`-separated fields (fields may be
empty, as in `"a//b"` or a leading/trailing slash). -/
def splitChars : List Char → List (List Char)
  | [] => [[]]
  | c :: rest =>
    if c = '/' then [] :: splitChars rest
    else
      match splitChars rest with
      | [] => [[c]]
      | f :: fs => (c :: f) :: fs

/-- The path segments `pathlib.PurePosixPath` keeps from a list of
characters: the `'/'`-separated fields with empty fields and single-dot
fields dropped (`Path("a//./b").parts == ("a", "b")`); `".."` fields are
kept. -/
def fieldsOf (l : List Char) : List String :=
  ((splitChars l).filter (fun f => decide (f ≠ [] ∧ f ≠ ['.']))).map
    (fun f => String.mk f)

/-- The path segments of a path string. -/
def parseSegs (s : String) : List String :=
  fieldsOf s.data

/-- An absolute POSIX path: `dbl` is true when the anchor is the POSIX
special `//` (exactly two leading slashes), and `segs` are the path
segments below the anchor. -/
structure PPath where
  dbl : Bool
  segs : List String
deriving DecidableEq, Repr

/-- Lexical `..`-normalization of a segment list, as `os.path.normpath` /
`Path.resolve` on a symlink-free filesystem: a `".."` segment removes the
segment before it (and is dropped at the anchor, since `/.. == /`). -/
def normSegs (segs : List String) : List String :=
  segs.foldl (fun acc s => if s = ".." then acc.dropLast else acc ++ [s]) []

/-- `Path(user_path)` made absolute against the workspace root and resolved,
lines 78–80 of `server.py`:
`candidate if candidate.is_absolute() else (WORKSPACE_ROOT / candidate)`,
then `.resolve()` (lexical normalization; symlink-free filesystem). -/
def pyResolve (root : PPath) (user_path : String) : PPath :=
  let isAbs : Bool := user_path.data.head? = some '/'
  let dbl : Bool := leadingSlashes user_path.data = 2
  let segs := parseSegs user_path
  let absP : PPath := if isAbs then ⟨dbl, segs⟩ else ⟨root.dbl, root.segs ++ segs⟩
  ⟨absP.dbl, normSegs absP.segs⟩

/-- Boolean segment-list prefix test. -/
def segsLead : List String → List String → Bool
  | [], _ => true
  | _ :: _, [] => false
  | a :: as, b :: bs => a = b && segsLead as bs

/-- `abs_path.relative_to(WORKSPACE_ROOT)` succeeds exactly when the two
paths have the same anchor and the root's segments are a prefix of the
path's segments (pathlib compares whole segments, never substrings). -/
def relativeToOk (root p : PPath) : Bool :=
  root.dbl = p.dbl && segsLead root.segs p.segs

/-- `"/".join` of the segments (the part of `str(Path)` below the anchor). -/
def joinSegs : List String → String
  | [] => ""
  | [s] => s
  | s :: rest => s ++ "/" ++ joinSegs rest

/-- `str(PurePosixPath)`: the anchor (`"//"` or `"/"`) followed by the
slash-joined segments. -/
def pathStr (p : PPath) : String :=
  (if p.dbl then "//" else "/") ++ joinSegs p.segs

/-- `resolve_workspace_path` (`server.py` lines 76–90): make the input
absolute, normalize, and fail with the path-escape message when
`relative_to(WORKSPACE_ROOT)` raises.  `guidance` models the string
`path_guidance()` returns (it depends on a directory listing of the root,
so it is a parameter here). -/
def resolve_workspace_path (root : PPath) (guidance : String)
    (user_path : String) : Except String PPath :=
  let abs_path := pyResolve root user_path
  if relativeToOk root abs_path then Except.ok abs_path
  else
    Except.error ("Path " ++ pathStr abs_path ++ " is outside workspace root "
      ++ pathStr root ++ ". " ++ guidance)

/-- `Path.name`: the final segment, `""` for the root itself. -/
def nameP (p : PPath) : String :=
  (p.segs.getLast?).getD ""

/-- `Path.parent`: drop the final segment (the root is its own parent). -/
def parentP (p : PPath) : PPath :=
  ⟨p.dbl, p.segs.dropLast⟩

/-- Index of the last `'.'` in a character list, if any. -/
def lastDotIdx : List Char → Option Nat
  | [] => none
  | c :: rest =>
    match lastDotIdx rest with
    | some j => some (j + 1)
    | none => if c = '.' then some 0 else none

/-- `PurePath.stem`: the name without its suffix, where a suffix exists only
when the last dot index `i` satisfies `0 < i < len(name) - 1` (CPython's
rule: `".bashrc"` and `"a."` have no suffix). -/
def pyStem (n : String) : String :=
  match lastDotIdx n.data with
  | some i => if 0 < i ∧ i + 1 < n.data.length then String.mk (n.data.take i) else n
  | none => n

/-- `dir / name` for a plain file name (no slash, not `.`/`..`). -/
def joinName (d : PPath) (n : String) : PPath :=
  ⟨d.dbl, d.segs ++ [n]⟩

/-- A side effect a tool performs: an existence check (`Path.exists`), a
file read (`Path.read_text`) or a subprocess execution with its working
directory. -/
inductive Effect where
  | fsCheck : PPath → Effect
  | fsRead : PPath → Effect
  | exec : String → PPath → Effect
deriving DecidableEq, Repr

/-- The `engine` argument of `build_latex`. -/
inductive Engine where
  | pdflatex
  | xelatex
  | lualatex
deriving DecidableEq, Repr

/-- Engine-flag selection, `server.py` lines 173–177: start from `"-pdf"`,
switch on `xelatex` / `lualatex`. -/
def engineFlag (engine : Engine) : String :=
  if engine = Engine.xelatex then "-pdfxe"
  else if engine = Engine.lualatex then "-pdflua"
  else "-pdf"

/-- The `latexmk` command line of `build_latex`, lines 179–188:
`" ".join(["latexmk", "-synctex=1", "-interaction=nonstopmode",
"-file-line-error", engine_flag, f'"{filename}"])`. -/
def buildCmd (engine : Engine) (filename : String) : String :=
  "latexmk" ++ " " ++ "-synctex=1" ++ " " ++ "-interaction=nonstopmode" ++ " "
    ++ "-file-line-error" ++ " " ++ engineFlag engine ++ " "
    ++ ("\"" ++ filename ++ "\"")

/-- `build_latex` (`server.py` lines 152–204).  `fs` answers the
`abs_path.exists()` check, `runner` is the transcript `run_command_async`
returns, and `fsAfter` answers the post-run `pdf_path.exists()` check.
Returns the report string and the ordered side effects. -/
def build_latex (root : PPath) (guidance : String) (fs : PPath → Bool)
    (runner : String → PPath → String) (fsAfter : PPath → Bool)
    (file : String) (engine : Engine := Engine.pdflatex) :
    String × List Effect :=
  match resolve_workspace_path root guidance file with
  | Except.error exc => ("ERROR: " ++ exc, [])
  | Except.ok abs_path =>
    if fs abs_path = false then
      ("ERROR: File not found: " ++ pathStr abs_path ++ "\n" ++ guidance,
        [Effect.fsCheck abs_path])
    else
      let cwd := parentP abs_path
      let filename := nameP abs_path
      let cmd := buildCmd engine filename
      let log := runner cmd cwd
      let base := pyStem (nameP abs_path)
      let pdf_path := joinName cwd (base ++ ".pdf")
      let pdf_exists := fsAfter pdf_path
      let summary :=
        "build_latex finished.\n\n"
          ++ "Working directory: " ++ pathStr cwd ++ "\n"
          ++ "Command: " ++ cmd ++ "\n"
          ++ "PDF exists: " ++ (if pdf_exists then pathStr pdf_path else "NO")
          ++ "\n\n"
          ++ "--- Latexmk log ---\n" ++ log
      (summary,
        [Effect.fsCheck abs_path, Effect.exec cmd cwd, Effect.fsCheck pdf_path])

/-- The `mode` argument of `clean_latex`. -/
inductive Mode where
  | aux
  | all
deriving DecidableEq, Repr

/-- The string value of the `mode` literal as it appears in the report. -/
def modeStr (mode : Mode) : String :=
  if mode = Mode.all then "all" else "aux"

/-- `clean_latex` (`server.py` lines 207–239): `flag = "-C" if mode == "all"
else "-c"`, `cmd = f'latexmk {flag} "{filename}"'`. -/
def clean_latex (root : PPath) (guidance : String) (fs : PPath → Bool)
    (runner : String → PPath → String) (file : String)
    (mode : Mode := Mode.aux) : String × List Effect :=
  match resolve_workspace_path root guidance file with
  | Except.error exc => ("ERROR: " ++ exc, [])
  | Except.ok abs_path =>
    if fs abs_path = false then
      ("ERROR: File not found: " ++ pathStr abs_path ++ "\n" ++ guidance,
        [Effect.fsCheck abs_path])
    else
      let cwd := parentP abs_path
      let filename := nameP abs_path
      let flag := if mode = Mode.all then "-C" else "-c"
      let cmd := "latexmk " ++ flag ++ " " ++ ("\"" ++ filename ++ "\"")
      let log := runner cmd cwd
      let msg :=
        "clean_latex finished.\n"
          ++ "Mode: " ++ modeStr mode ++ "\n"
          ++ "Command: " ++ cmd ++ "\n\n"
          ++ "--- Latexmk log ---\n" ++ log
      (msg, [Effect.fsCheck abs_path, Effect.exec cmd cwd])

/-- `read_latex_log` (`server.py` lines 242–264): resolve, derive the `.log`
sibling `cwd / f"{base}.log"`, return guidance when it is absent, otherwise
read it permissively (`errors="ignore"`, modelled by the total oracle
`readF`).  Note the `.tex` file's own existence is never checked. -/
def read_latex_log (root : PPath) (guidance : String) (fs : PPath → Bool)
    (readF : PPath → String) (file : String) : String × List Effect :=
  match resolve_workspace_path root guidance file with
  | Except.error exc => ("ERROR: " ++ exc, [])
  | Except.ok abs_path =>
    let cwd := parentP abs_path
    let base := pyStem (nameP abs_path)
    let log_path := joinName cwd (base ++ ".log")
    if fs log_path = false then
      ("Log file not found: " ++ pathStr log_path
        ++ "\nYou may need to run build_latex first.\n" ++ guidance,
        [Effect.fsCheck log_path])
    else
      let content := readF log_path
      ("Log path: " ++ pathStr log_path ++ "\n\n" ++ content,
        [Effect.fsCheck log_path, Effect.fsRead log_path])

/-- A UTF-8 continuation byte: `0x80 ≤ b ≤ 0xBF`. -/
def isCont (b : Nat) : Bool :=
  128 ≤ b && b ≤ 191

/-- Strict UTF-8 decoding of a byte list into code points, `none` on any
ill-formed sequence — the behavior of Python's `bytes.decode()` with the
default `errors="strict"` (RFC 3629: overlong forms, surrogates and
values above U+10FFFF are rejected). -/
def utf8DecodeStrict : List Nat → Option (List Nat)
  | [] => some []
  | b :: rest =>
    if b ≤ 127 then
      (utf8DecodeStrict rest).map (fun cps => b :: cps)
    else if 194 ≤ b && b ≤ 223 then
      match rest with
      | b1 :: rest' =>
        if isCont b1 then
          (utf8DecodeStrict rest').map (fun cps => ((b - 192) * 64 + (b1 - 128)) :: cps)
        else none
      | [] => none
    else if 224 ≤ b && b ≤ 239 then
      match rest with
      | b1 :: b2 :: rest' =>
        let lo1 : Nat := if b = 224 then 160 else 128
        let hi1 : Nat := if b = 237 then 159 else 191
        if (lo1 ≤ b1 && b1 ≤ hi1) && isCont b2 then
          (utf8DecodeStrict rest').map
            (fun cps => ((b - 224) * 4096 + (b1 - 128) * 64 + (b2 - 128)) :: cps)
        else none
      | _ => none
    else if 240 ≤ b && b ≤ 244 then
      match rest with
      | b1 :: b2 :: b3 :: rest' =>
        let lo1 : Nat := if b = 240 then 144 else 128
        let hi1 : Nat := if b = 244 then 143 else 191
        if (lo1 ≤ b1 && b1 ≤ hi1) && isCont b2 && isCont b3 then
          (utf8DecodeStrict rest').map
            (fun cps => ((b - 240) * 262144 + (b1 - 128) * 4096
              + (b2 - 128) * 64 + (b3 - 128)) :: cps)
        else none
      | _ => none
    else none

/-- `bytes.decode()` as the server calls it: strict decoding, a
`UnicodeDecodeError` (modelled as `Except.error ()`) on ill-formed input. -/
def pyDecode (bs : List Nat) : Except Unit String :=
  match utf8DecodeStrict bs with
  | some cps => Except.ok (String.mk (cps.map Char.ofNat))
  | none => Except.error ()

/-- `run_command_async` (`server.py` lines 113–130): spawn the command (the
child's byte outputs and exit code are parameters), then decode
`stdout`/`stderr` with plain `.decode()` — strict UTF-8, raising on
undecodable bytes (`stdout.decode() if stdout else ""`) — and assemble the
transcript, appending the exit-code line when the code is nonzero. -/
def run_command_async (cmd : String) (cwd : PPath) (stdoutB stderrB : List Nat)
    (returncode : Int) : Except Unit String := do
  let so ← if stdoutB = [] then Except.ok "" else pyDecode stdoutB
  let se ← if stderrB = [] then Except.ok "" else pyDecode stderrB
  let log := "> " ++ cmd ++ "\n\n" ++ so ++ se
  let _ := cwd
  if returncode ≠ 0 then
    return log ++ "\n\n[latex-mcp] Command exited with code "
      ++ toString returncode ++ "\n"
  else
    return log

/-- Substring test: does `pat` occur contiguously inside `l`? -/
def subOf (pat : List Char) : List Char → Bool
  | [] => pat.isEmpty
  | c :: rest => pat.isPrefixOf (c :: rest) || subOf pat rest

/-- String containment: `pat` occurs contiguously in `s` (Python `in`). -/
def strContains (pat s : String) : Bool :=
  subOf pat.data s.data

/-- Spec-worded containment: the path is the workspace root itself, or a
descendant of it, where descent is judged at whole path segments. -/
def specContained (root p : PPath) : Prop :=
  p = root ∨ (p.dbl = root.dbl ∧ (∃ t, t ≠ [] ∧ p.segs = root.segs ++ t))

/-- A sanely configured workspace root: nonempty (not the filesystem root)
and made of real segment names — what `Path(...).resolve()` at startup
guarantees for any configured directory other than `/` itself. -/
def CleanRoot (root : PPath) : Prop :=
  root.segs ≠ [] ∧
    ∀ s ∈ root.segs, s ≠ "" ∧ s ≠ "." ∧ s ≠ ".." ∧ '/' ∉ s.data

/-- The path a side effect touches: the checked/read path, or the working
directory of an execution. -/
def effTarget : Effect → PPath
  | Effect.fsCheck p => p
  | Effect.fsRead p => p
  | Effect.exec _ cwd => cwd

/-- Every path a trace touches lies inside the root (as `relative_to`
judges containment). -/
def traceWithin (root : PPath) (tr : List Effect) : Bool :=
  tr.all (fun e => relativeToOk root (effTarget e))

/-- The default workspace root `/workspaces`. -/
def root₀ : PPath := ⟨false, ["workspaces"]⟩

/-! ### Helper lemmas -/

theorem segsLeads_iff (a b : List String) :
    segsLead a b = true ↔ ∃ t, b = a ++ t := by
  induction a generalizing b with
  | nil => simp [segsLead]
  | cons x xs ih =>
    cases b with
    | nil => simp [segsLead]
    | cons y ys =>
      simp only [segsLead, Bool.and_eq_true, decide_eq_true_eq, ih,
        List.cons_append, List.cons.injEq]
      constructor
      · rintro ⟨hxy, t, ht⟩
        exact ⟨t, hxy.symm ▸ rfl, ht⟩
      · rintro ⟨t, hy, ht⟩
        exact ⟨hy.symm, t, ht⟩

theorem segsLeads_self_append (a t : List String) :
    segsLead a (a ++ t) = true :=
  (segsLeads_iff a (a ++ t)).mpr ⟨t, rfl⟩

theorem PPath.ext_iff₂ (p q : PPath) : p = q ↔ p.dbl = q.dbl ∧ p.segs = q.segs := by
  cases p; cases q; simp

theorem specContained_iff (root p : PPath) :
    specContained root p ↔ relativeToOk root p = true := by
  simp only [specContained, relativeToOk, Bool.and_eq_true, decide_eq_true_eq,
    segsLeads_iff]
  constructor
  · rintro (rfl | ⟨hd, t, _, ht⟩)
    · exact ⟨rfl, [], by simp⟩
    · exact ⟨hd.symm, t, ht⟩
  · rintro ⟨hd, t, ht⟩
    cases t with
    | nil => exact Or.inl ((PPath.ext_iff₂ p root).mpr ⟨hd.symm, by simpa using ht⟩)
    | cons s t => exact Or.inr ⟨hd.symm, s :: t, by simp, ht⟩

theorem resolve_ok_iff (root : PPath) (g p : String) (abs : PPath) :
    resolve_workspace_path root g p = Except.ok abs ↔
      relativeToOk root (pyResolve root p) = true ∧ abs = pyResolve root p := by
  unfold resolve_workspace_path
  by_cases h : relativeToOk root (pyResolve root p) = true
  · simp [h, eq_comm]
  · simp [h]

theorem resolve_err (root : PPath) (g p : String)
    (h : relativeToOk root (pyResolve root p) = false) :
    resolve_workspace_path root g p =
      Except.error ("Path " ++ pathStr (pyResolve root p)
        ++ " is outside workspace root " ++ pathStr root ++ ". " ++ g) := by
  unfold resolve_workspace_path
  simp [h]

theorem mem_of_mem_dropLast {α : Type} {x : α} :
    ∀ {l : List α}, x ∈ l.dropLast → x ∈ l
  | [], h => by simp at h
  | [_], h => by simp [List.dropLast] at h
  | a :: b :: l, h => by
    rw [List.dropLast_cons₂] at h
    rcases List.mem_cons.mp h with h | h
    · exact h ▸ List.mem_cons_self a _
    · exact List.mem_cons_of_mem a (mem_of_mem_dropLast h)

theorem normSegs_no_dotdot (l : List String) : ".." ∉ normSegs l := by
  suffices h : ∀ acc : List String, ".." ∉ acc →
      ".." ∉ l.foldl (fun acc s => if s = ".." then acc.dropLast else acc ++ [s]) acc by
    exact h [] (by simp)
  induction l with
  | nil => intro acc hacc; simpa using hacc
  | cons s l ih =>
    intro acc hacc
    simp only [List.foldl_cons]
    apply ih
    by_cases hs : s = ".."
    · simp only [hs, if_pos rfl]
      exact fun hmem => hacc (mem_of_mem_dropLast hmem)
    · simp only [if_neg hs, List.mem_append, List.mem_singleton]
      rintro (h | h)
      · exact hacc h
      · exact hs h.symm

theorem isPrefixOfP_self_append (p t : List Char) :
    p.isPrefixOf (p ++ t) = true := by
  induction p with
  | nil => simp [List.isPrefixOf]
  | cons c p ih => simp [List.isPrefixOf, ih]

theorem isPrefixOfP_append_extend (p : List Char) :
    ∀ l b, p.isPrefixOf l = true → p.isPrefixOf (l ++ b) = true := by
  induction p with
  | nil => intro l b _; simp [List.isPrefixOf]
  | cons c p ih =>
    intro l b h
    cases l with
    | nil => simp [List.isPrefixOf] at h
    | cons c' l' =>
      simp only [List.isPrefixOf, Bool.and_eq_true] at h ⊢
      exact ⟨h.1, ih l' b h.2⟩

theorem subOf_nil_pat (l : List Char) : subOf [] l = true := by
  cases l <;> simp [subOf, List.isPrefixOf]

theorem subOf_here (p t : List Char) : subOf p (p ++ t) = true := by
  cases p with
  | nil => exact subOf_nil_pat t
  | cons c p' =>
    simp only [List.cons_append, subOf, Bool.or_eq_true]
    exact Or.inl (isPrefixOfP_self_append (c :: p') t)

theorem subOf_append_right (p a b : List Char) (h : subOf p b = true) :
    subOf p (a ++ b) = true := by
  induction a with
  | nil => simpa using h
  | cons c a ih =>
    simp only [List.cons_append, subOf, Bool.or_eq_true]
    exact Or.inr ih

theorem subOf_append_left (p : List Char) :
    ∀ a b, subOf p a = true → subOf p (a ++ b) = true := by
  intro a
  induction a with
  | nil =>
    intro b h
    simp only [subOf, List.isEmpty_iff] at h
    subst h
    simpa using subOf_nil_pat b
  | cons c a ih =>
    intro b h
    simp only [subOf, Bool.or_eq_true] at h ⊢
    rcases h with h | h
    · exact Or.inl (isPrefixOfP_append_extend _ _ _ h)
    · exact Or.inr (ih b h)

theorem splitChars_ne_nil (l : List Char) : splitChars l ≠ [] := by
  cases l with
  | nil => simp [splitChars]
  | cons c rest =>
    by_cases hc : c = '/'
    · simp [splitChars, hc]
    · cases h : splitChars rest <;> simp [splitChars, hc, h]

theorem splitChars_append_slash (a b : List Char) :
    splitChars (a ++ '/' :: b) = splitChars a ++ splitChars b := by
  induction a with
  | nil => simp [splitChars]
  | cons c a ih =>
    by_cases hc : c = '/'
    · simp [splitChars, hc, ih]
    · obtain ⟨f, fs, hf⟩ := List.exists_cons_of_ne_nil (splitChars_ne_nil a)
      simp [splitChars, hc, ih, hf]

theorem splitChars_no_slash : ∀ l : List Char, '/' ∉ l → splitChars l = [l] := by
  intro l
  induction l with
  | nil => intro _; rfl
  | cons c rest ih =>
    intro h
    have hc : c ≠ '/' := fun hc => h (hc ▸ List.mem_cons_self c rest)
    have hrest : '/' ∉ rest := fun hm => h (List.mem_cons_of_mem c hm)
    simp [splitChars, hc, ih hrest]

theorem fieldsOf_append_slash (a b : List Char) :
    fieldsOf (a ++ '/' :: b) = fieldsOf a ++ fieldsOf b := by
  simp [fieldsOf, splitChars_append_slash, List.filter_append, List.map_append]

theorem fieldsOf_slash_cons (b : List Char) :
    fieldsOf ('/' :: b) = fieldsOf b := by
  simp [fieldsOf, splitChars]

/-- A single clean segment splits to itself. -/
theorem fieldsOf_clean_seg (s : String) (h1 : s ≠ "") (h2 : s ≠ ".")
    (h3 : '/' ∉ s.data) : fieldsOf s.data = [s] := by
  have hne : s.data ≠ [] := by
    intro hd
    apply h1
    cases s with
    | mk d => simp only at hd; simp [hd]
  have hnd : s.data ≠ ['.'] := by
    intro hd
    apply h2
    cases s with
    | mk d => simp only at hd; simp [hd]
  simp [fieldsOf, splitChars_no_slash s.data h3, hne, hnd]

theorem fieldsOf_joinSegs (segs : List String)
    (h : ∀ s ∈ segs, s ≠ "" ∧ s ≠ "." ∧ s ≠ ".." ∧ '/' ∉ s.data) :
    fieldsOf (joinSegs segs).data = segs := by
  induction segs with
  | nil => simp [joinSegs, fieldsOf, splitChars]
  | cons s rest ih =>
    obtain ⟨h1, h2, _, h4⟩ := h s (List.mem_cons_self s rest)
    cases rest with
    | nil => simpa [joinSegs] using fieldsOf_clean_seg s h1 h2 h4
    | cons r rest' =>
      have hjoin : (joinSegs (s :: r :: rest')).data
          = s.data ++ '/' :: (joinSegs (r :: rest')).data := by
        show (s ++ "/" ++ joinSegs (r :: rest')).data = _
        simp [String.data_append]
      rw [hjoin, fieldsOf_append_slash, fieldsOf_clean_seg s h1 h2 h4]
      have := ih (fun x hx => h x (List.mem_cons_of_mem s hx))
      simp [this]

theorem slash_data : ("/" : String).data = ['/'] := rfl

theorem dslash_data : ("//" : String).data = ['/', '/'] := rfl

theorem concat_data (root : PPath) (p : String) :
    (pathStr root ++ "/" ++ p).data
      = (if root.dbl then ['/', '/'] else ['/'])
        ++ ((joinSegs root.segs).data ++ '/' :: p.data) := by
  cases hdbl : root.dbl <;>
    simp [pathStr, hdbl, String.data_append, List.append_assoc, slash_data,
      dslash_data]

theorem joinSegs_clean_head (s : String) (rest : List String)
    (h : ∀ x ∈ s :: rest, x ≠ "" ∧ x ≠ "." ∧ x ≠ ".." ∧ '/' ∉ x.data) :
    ∃ c cs, (joinSegs (s :: rest)).data = c :: cs ∧ c ≠ '/' := by
  obtain ⟨h1, _, _, h4⟩ := h s (List.mem_cons_self s rest)
  have hsd : ∃ c cs, s.data = c :: cs ∧ c ≠ '/' := by
    cases hs : s.data with
    | nil => exact absurd (by cases s with | mk d => simp at hs; simp [hs]) h1
    | cons c cs =>
      refine ⟨c, cs, rfl, fun hc => h4 ?_⟩
      rw [hs, hc]
      exact List.mem_cons_self _ _
  obtain ⟨c, cs, hcd, hc⟩ := hsd
  cases rest with
  | nil => exact ⟨c, cs, by simpa [joinSegs] using hcd, hc⟩
  | cons r rest' =>
    refine ⟨c, cs ++ '/' :: (joinSegs (r :: rest')).data, ?_, hc⟩
    show (s ++ "/" ++ joinSegs (r :: rest')).data = _
    simp [String.data_append, hcd, slash_data]

theorem leadingSlashes_cons_ne (c : Char) (l : List Char) (h : c ≠ '/') :
    leadingSlashes (c :: l) = 0 := by
  simp [leadingSlashes, List.takeWhile_cons, h]

theorem leadingSlashes_cons_slash (l : List Char) :
    leadingSlashes ('/' :: l) = leadingSlashes l + 1 := by
  simp [leadingSlashes, List.takeWhile_cons]

theorem pyResolve_abs (root : PPath) (s : String) (h : s.data.head? = some '/') :
    pyResolve root s = ⟨decide (leadingSlashes s.data = 2), normSegs (parseSegs s)⟩ := by
  simp [pyResolve, h]

theorem pyResolve_rel (root : PPath) (s : String) (h : s.data.head? ≠ some '/') :
    pyResolve root s = ⟨root.dbl, normSegs (root.segs ++ parseSegs s)⟩ := by
  simp [pyResolve, h]

/-- Prefixing a relative path with `str(WORKSPACE_ROOT) + "/"` parses to the
root's segments followed by the path's own segments, with the root's anchor;
hence `Path.resolve` gives the same result as joining inside `pathlib`. -/
theorem pyResolve_concat (root : PPath) (hroot : CleanRoot root) (p : String)
    (hrel : p.data.head? ≠ some '/') :
    pyResolve root (pathStr root ++ "/" ++ p) = pyResolve root p := by
  obtain ⟨hne, hclean⟩ := hroot
  obtain ⟨s, rest, hsegs⟩ := List.exists_cons_of_ne_nil hne
  obtain ⟨c, cs, hjd, hc⟩ := joinSegs_clean_head s rest (hsegs ▸ hclean)
  have hd := concat_data root p
  rw [hsegs, hjd] at hd
  have hfields : parseSegs (pathStr root ++ "/" ++ p) = root.segs ++ parseSegs p := by
    show fieldsOf (pathStr root ++ "/" ++ p).data = root.segs ++ parseSegs p
    rw [hd]
    cases hdbl : root.dbl
    · show fieldsOf ('/' :: ((c :: cs) ++ '/' :: p.data)) = root.segs ++ parseSegs p
      rw [fieldsOf_slash_cons, ← hjd, fieldsOf_append_slash,
        fieldsOf_joinSegs (s :: rest) (hsegs ▸ hclean), ← hsegs]
      rfl
    · show fieldsOf ('/' :: '/' :: ((c :: cs) ++ '/' :: p.data))
        = root.segs ++ parseSegs p
      rw [fieldsOf_slash_cons, fieldsOf_slash_cons, ← hjd, fieldsOf_append_slash,
        fieldsOf_joinSegs (s :: rest) (hsegs ▸ hclean), ← hsegs]
      rfl
  cases hdbl : root.dbl
  · have hhead : (pathStr root ++ "/" ++ p).data.head? = some '/' := by
      rw [hd]; simp [hdbl]
    have hlead : leadingSlashes (pathStr root ++ "/" ++ p).data = 1 := by
      rw [hd]
      simp only [hdbl, Bool.false_eq_true, if_false, List.singleton_append]
      show leadingSlashes ('/' :: (c :: (cs ++ '/' :: p.data))) = 1
      rw [leadingSlashes_cons_slash, leadingSlashes_cons_ne c (cs ++ '/' :: p.data) hc]
    rw [pyResolve_abs root _ hhead, pyResolve_rel root p hrel, hlead, hfields, hdbl]
    simp
  · have hhead : (pathStr root ++ "/" ++ p).data.head? = some '/' := by
      rw [hd]; simp [hdbl]
    have hlead : leadingSlashes (pathStr root ++ "/" ++ p).data = 2 := by
      rw [hd]
      simp only [hdbl, if_true]
      show leadingSlashes ('/' :: '/' :: (c :: (cs ++ '/' :: p.data))) = 2
      rw [leadingSlashes_cons_slash, leadingSlashes_cons_slash,
        leadingSlashes_cons_ne c (cs ++ '/' :: p.data) hc]
    rw [pyResolve_abs root _ hhead, pyResolve_rel root p hrel, hlead, hfields, hdbl]
    simp

theorem resolve_concat_eq (root : PPath) (g p : String) (hroot : CleanRoot root)
    (hrel : p.data.head? ≠ some '/') :
    resolve_workspace_path root g p
      = resolve_workspace_path root g (pathStr root ++ "/" ++ p) := by
  unfold resolve_workspace_path
  rw [pyResolve_concat root hroot p hrel]

/-! ### Claims -/

/-- C1: for every input string whose fully normalized absolute form is
neither the workspace root nor a descendant of it — containment judged at
path-segment boundaries — `resolve_workspace_path` fails with a path-escape
error whose message contains "outside workspace root" (the resolver is a
pure function of the input and the root, so it performs no filesystem or
process side effects); for every input whose normalized form is the root or
a descendant, it returns that normalized path. -/
theorem C1_resolve_containment (root : PPath) (g p : String) :
    (¬ specContained root (pyResolve root p) →
      ∃ msg, resolve_workspace_path root g p = Except.error msg ∧
        strContains "outside workspace root" msg = true) ∧
    (specContained root (pyResolve root p) →
      resolve_workspace_path root g p = Except.ok (pyResolve root p)) := by
  constructor
  · intro hnc
    have hrel : relativeToOk root (pyResolve root p) = false := by
      rcases Bool.eq_false_or_eq_true (relativeToOk root (pyResolve root p)) with h | h
      · exact absurd ((specContained_iff root _).mpr h) hnc
      · exact h
    refine ⟨_, resolve_err root g p hrel, ?_⟩
    show subOf ("outside workspace root").data
      ("Path " ++ pathStr (pyResolve root p) ++ " is outside workspace root "
        ++ pathStr root ++ ". " ++ g).data = true
    simp only [String.data_append]
    apply subOf_append_left
    apply subOf_append_left
    apply subOf_append_left
    apply subOf_append_right
    decide
  · intro hc
    exact (resolve_ok_iff root g p _).mpr
      ⟨(specContained_iff root _).mp hc, rfl⟩

/-- Witness for C1: with root `/workspaces/foo` the input `/workspaces/foo2`
is rejected (segment-boundary containment), and with root `/workspaces` the
input `/workspaces/demo/main.tex` resolves to itself. -/
theorem C1_resolve_containment_witness :
    (∃ msg, resolve_workspace_path ⟨false, ["workspaces", "foo"]⟩ "G" "/workspaces/foo2"
        = Except.error msg ∧ strContains "outside workspace root" msg = true) ∧
    resolve_workspace_path root₀ "G" "/workspaces/demo/main.tex"
      = Except.ok (pyResolve root₀ "/workspaces/demo/main.tex") :=
  ⟨(C1_resolve_containment ⟨false, ["workspaces", "foo"]⟩ "G" "/workspaces/foo2").1
      (fun hc => by
        have h := (specContained_iff _ _).mp hc
        revert h
        decide),
    (C1_resolve_containment root₀ "G" "/workspaces/demo/main.tex").2
      (by
        apply (specContained_iff _ _).mpr
        decide)⟩

/-- C9: for every relative input path `p` (with a sanely configured,
non-filesystem-root workspace root), `resolve_workspace_path p` returns the
same result, or fails the same way, as `resolve_workspace_path` applied to
`str(WORKSPACE_ROOT) + "/" + p`. -/
theorem C9_resolve_relative_join (root : PPath) (g p : String)
    (hroot : CleanRoot root) (hrel : p.data.head? ≠ some '/') :
    resolve_workspace_path root g p
      = resolve_workspace_path root g (pathStr root ++ "/" ++ p) :=
  resolve_concat_eq root g p hroot hrel

/-- Witness for C9 at root `/workspaces` and relative input `demo/main.tex`. -/
theorem C9_resolve_relative_join_witness :
    CleanRoot root₀ ∧ ("demo/main.tex" : String).data.head? ≠ some '/' ∧
    resolve_workspace_path root₀ "G" "demo/main.tex"
      = resolve_workspace_path root₀ "G" (pathStr root₀ ++ "/" ++ "demo/main.tex") :=
  ⟨⟨by decide, by decide⟩, by decide,
    C9_resolve_relative_join root₀ "G" "demo/main.tex" ⟨by decide, by decide⟩ (by decide)⟩

/-- C10: for every input path containing `..` segments whose net effect
stays within the workspace root, `resolve_workspace_path` succeeds and
returns the fully normalized absolute form, which contains no literal `..`
segment. -/
theorem C10_dotdot_resolves_normalized (root : PPath) (g p : String)
    (_hdd : ".." ∈ parseSegs p)
    (hin : relativeToOk root (pyResolve root p) = true) :
    resolve_workspace_path root g p = Except.ok (pyResolve root p) ∧
      ".." ∉ (pyResolve root p).segs := by
  refine ⟨(resolve_ok_iff root g p _).mpr ⟨hin, rfl⟩, ?_⟩
  exact normSegs_no_dotdot _

/-- Witness for C10 at root `/workspaces`, input `demo/../demo/main.tex`. -/
theorem C10_dotdot_resolves_normalized_witness :
    (".." ∈ parseSegs "demo/../demo/main.tex") ∧
    resolve_workspace_path root₀ "G" "demo/../demo/main.tex"
      = Except.ok (pyResolve root₀ "demo/../demo/main.tex") ∧
    ".." ∉ (pyResolve root₀ "demo/../demo/main.tex").segs :=
  ⟨by decide,
    C10_dotdot_resolves_normalized root₀ "G" "demo/../demo/main.tex"
      (by decide) (by decide)⟩

theorem within_parent (root abs : PPath) (hok : relativeToOk root abs = true)
    (hne : abs ≠ root) : relativeToOk root (parentP abs) = true := by
  simp only [relativeToOk, Bool.and_eq_true, decide_eq_true_eq] at hok ⊢
  obtain ⟨hdbl, hpre⟩ := hok
  obtain ⟨t, ht⟩ := (segsLeads_iff _ _).mp hpre
  have htne : t ≠ [] := by
    rintro rfl
    apply hne
    apply (PPath.ext_iff₂ abs root).mpr
    exact ⟨hdbl.symm, by simpa using ht⟩
  refine ⟨hdbl, (segsLeads_iff _ _).mpr ⟨t.dropLast, ?_⟩⟩
  show abs.segs.dropLast = _
  rw [ht, List.dropLast_append_of_ne_nil _ htne]

theorem within_joinName (root d : PPath) (n : String)
    (h : relativeToOk root d = true) :
    relativeToOk root (joinName d n) = true := by
  simp only [relativeToOk, Bool.and_eq_true, decide_eq_true_eq] at h ⊢
  obtain ⟨hdbl, hpre⟩ := h
  obtain ⟨t, ht⟩ := (segsLeads_iff _ _).mp hpre
  exact ⟨hdbl, (segsLeads_iff _ _).mpr ⟨t ++ [n], by simp [joinName, ht]⟩⟩

/-- C2 counterexample: the input `/workspaces` is accepted by the resolver —
it resolves to the workspace root itself — yet `read_latex_log` derives and
checks the log path `/workspaces.log`, a sibling of the root, so not every
filesystem path the tools touch lies within the workspace root. -/
theorem C2_read_log_escapes_at_root :
    resolve_workspace_path root₀ "G" "/workspaces" = Except.ok root₀ ∧
    (read_latex_log root₀ "G" (fun _ => false) (fun _ => "") "/workspaces").2
      = [Effect.fsCheck ⟨false, ["workspaces.log"]⟩] ∧
    traceWithin root₀
      (read_latex_log root₀ "G" (fun _ => false) (fun _ => "") "/workspaces").2
      = false :=
  ⟨rfl, by decide, by decide⟩

/-- C2 (amended): for every call to any of the three tools whose input does
not resolve to the workspace root itself, every filesystem path the tool
checks or reads and every working directory it uses for a spawned command is
the workspace root or a descendant of it.  (When the input resolves to the
root itself — the only inputs the resolver accepts that are excluded here —
`read_latex_log` derives an out-of-root `.log` sibling and `build_latex` /
`clean_latex` use the root's parent as working directory.) -/
theorem C2_tools_within_root (root : PPath) (g : String)
    (fs : PPath → Bool) (runner : String → PPath → String) (fsA : PPath → Bool)
    (rd : PPath → String) (file : String) (engine : Engine) (mode : Mode)
    (h : ∀ abs, resolve_workspace_path root g file = Except.ok abs → abs ≠ root) :
    traceWithin root (build_latex root g fs runner fsA file engine).2 = true ∧
    traceWithin root (clean_latex root g fs runner file mode).2 = true ∧
    traceWithin root (read_latex_log root g fs rd file).2 = true := by
  cases hr : resolve_workspace_path root g file with
  | error e =>
    refine ⟨?_, ?_, ?_⟩ <;>
      simp [build_latex, clean_latex, read_latex_log, hr, traceWithin]
  | ok abs =>
    have habs : relativeToOk root abs = true := by
      obtain ⟨hok, heq⟩ := (resolve_ok_iff root g file abs).mp hr
      rw [heq]
      exact hok
    have hne := h abs hr
    have hparent := within_parent root abs habs hne
    have hpdf : relativeToOk root
        (joinName (parentP abs) (pyStem (nameP abs) ++ ".pdf")) = true :=
      within_joinName _ _ _ hparent
    have hlog : relativeToOk root
        (joinName (parentP abs) (pyStem (nameP abs) ++ ".log")) = true :=
      within_joinName _ _ _ hparent
    refine ⟨?_, ?_, ?_⟩
    · by_cases hfs : fs abs = false
      · simp [build_latex, hr, hfs, traceWithin, effTarget, habs]
      · simp [build_latex, hr, hfs, traceWithin, effTarget, habs, hparent, hpdf]
    · by_cases hfs : fs abs = false
      · simp [clean_latex, hr, hfs, traceWithin, effTarget, habs]
      · simp [clean_latex, hr, hfs, traceWithin, effTarget, habs, hparent]
    · by_cases hfs : fs (joinName (parentP abs) (pyStem (nameP abs) ++ ".log")) = false
      · simp [read_latex_log, hr, hfs, traceWithin, effTarget, hlog]
      · simp [read_latex_log, hr, hfs, traceWithin, effTarget, hlog]

/-- Witness for the amended C2 at root `/workspaces` and input
`/workspaces/demo/main.tex`. -/
theorem C2_tools_within_root_witness :
    traceWithin root₀ (build_latex root₀ "G" (fun _ => true) (fun _ _ => "log")
      (fun _ => true) "/workspaces/demo/main.tex" Engine.pdflatex).2 = true ∧
    traceWithin root₀ (clean_latex root₀ "G" (fun _ => true) (fun _ _ => "log")
      "/workspaces/demo/main.tex" Mode.aux).2 = true ∧
    traceWithin root₀ (read_latex_log root₀ "G" (fun _ => true) (fun _ => "")
      "/workspaces/demo/main.tex").2 = true :=
  C2_tools_within_root root₀ "G" (fun _ => true) (fun _ _ => "log")
    (fun _ => true) (fun _ => "") "/workspaces/demo/main.tex"
    Engine.pdflatex Mode.aux
    (fun abs habs => by
      have h2 : Except.ok (PPath.mk false ["workspaces", "demo", "main.tex"])
          = Except.ok abs := habs
      injection h2 with h3
      subst h3
      decide)

/-- C3: the claim says the executor decodes stdout/stderr permissively and
never raises a decoding error; the code calls plain `.decode()` (strict
UTF-8), so a child emitting the single byte `0xFF` on stdout makes
`run_command_async` raise `UnicodeDecodeError` — contradicting the module's
own stated parity with the Node implementation, whose buffer-to-string
conversion never throws. -/
theorem C3_executor_decode_strict :
    run_command_async
        "latexmk -synctex=1 -interaction=nonstopmode -file-line-error -pdf \"main.tex\""
        ⟨false, ["workspaces", "demo"]⟩ [255] [] 0 = Except.error () ∧
    pyDecode [255] = Except.error () ∧
    pyDecode [104, 105] = Except.ok "hi" :=
  ⟨rfl, rfl, rfl⟩

/-- C4: whenever path resolution fails, or the resolved file does not exist,
`build_latex` returns a report beginning with "ERROR" and never performs an
execution; in particular with root `/workspaces` and input `../etc/passwd`
the report contains "outside workspace root" and no command is run. -/
theorem C4_build_error_short_circuit (root : PPath) (g : String)
    (fs : PPath → Bool) (runner : String → PPath → String) (fsA : PPath → Bool)
    (file : String) (engine : Engine) :
    (∀ exc, resolve_workspace_path root g file = Except.error exc →
      (∃ r, (build_latex root g fs runner fsA file engine).1 = "ERROR" ++ r) ∧
      (build_latex root g fs runner fsA file engine).2 = []) ∧
    (∀ abs, resolve_workspace_path root g file = Except.ok abs → fs abs = false →
      (∃ r, (build_latex root g fs runner fsA file engine).1 = "ERROR" ++ r) ∧
      (∀ c w, Effect.exec c w ∉ (build_latex root g fs runner fsA file engine).2)) ∧
    strContains "outside workspace root"
      (build_latex root₀ g fs runner fsA "../etc/passwd" engine).1 = true ∧
    (build_latex root₀ g fs runner fsA "../etc/passwd" engine).2 = [] := by
  refine ⟨?_, ?_, ?_, ?_⟩
  · intro exc hr
    constructor
    · refine ⟨": " ++ exc, ?_⟩
      simp only [build_latex, hr]
      exact String.append_assoc "ERROR" ": " exc
    · simp [build_latex, hr]
  · intro abs hr hfs
    constructor
    · refine ⟨((": File not found: " ++ pathStr abs) ++ "\n") ++ g, ?_⟩
      simp only [build_latex, hr, hfs]
      simp only [← String.append_assoc]
      rfl
    · intro c w
      simp [build_latex, hr, hfs]
  · show strContains "outside workspace root"
      ("ERROR: " ++ ("Path /etc/passwd is outside workspace root /workspaces. " ++ g))
        = true
    unfold strContains
    simp only [String.data_append]
    apply subOf_append_right
    apply subOf_append_left
    decide
  · rfl

/-- C5: for every successfully resolved, existing input file, `build_latex`
assembles exactly `latexmk -synctex=1 -interaction=nonstopmode
-file-line-error <engine flag> "<filename>"` (filename double-quoted),
with pdflatex — the default when the argument is omitted — mapped to `-pdf`,
xelatex to `-pdfxe` and lualatex to `-pdflua`, and executes it with the
working directory set to the resolved file's containing directory. -/
theorem C5_build_command_exact (root : PPath) (g : String) (fs : PPath → Bool)
    (runner : String → PPath → String) (fsA : PPath → Bool) (file : String)
    (engine : Engine) (abs : PPath)
    (h1 : resolve_workspace_path root g file = Except.ok abs)
    (h2 : fs abs = true) :
    (build_latex root g fs runner fsA file engine).2
      = [Effect.fsCheck abs,
         Effect.exec (buildCmd engine (nameP abs)) (parentP abs),
         Effect.fsCheck (joinName (parentP abs) (pyStem (nameP abs) ++ ".pdf"))] ∧
    buildCmd engine (nameP abs)
      = "latexmk -synctex=1 -interaction=nonstopmode -file-line-error "
        ++ engineFlag engine ++ " \"" ++ nameP abs ++ "\"" ∧
    engineFlag Engine.pdflatex = "-pdf" ∧
    engineFlag Engine.xelatex = "-pdfxe" ∧
    engineFlag Engine.lualatex = "-pdflua" ∧
    build_latex root g fs runner fsA file
      = build_latex root g fs runner fsA file Engine.pdflatex := by
  refine ⟨?_, ?_, rfl, rfl, rfl, rfl⟩
  · simp [build_latex, h1, h2]
  · cases engine <;> rfl

theorem subOf_self (p : List Char) : subOf p p = true := by
  simpa using subOf_here p []

/-- C6: for every `build_latex` call that reaches execution, the report
carries the line `PDF exists: <sibling .pdf path>` exactly when that `.pdf`
exists after the run and `PDF exists: NO` otherwise — the slot is determined
only by the post-run existence check, never by the captured exit code or
transcript (`runner` is arbitrary here). -/
theorem C6_build_pdf_line (root : PPath) (g : String) (fs : PPath → Bool)
    (runner : String → PPath → String) (fsA : PPath → Bool) (file : String)
    (engine : Engine) (abs : PPath)
    (h1 : resolve_workspace_path root g file = Except.ok abs)
    (h2 : fs abs = true) :
    (build_latex root g fs runner fsA file engine).1
      = "build_latex finished.\n\n"
        ++ "Working directory: " ++ pathStr (parentP abs) ++ "\n"
        ++ "Command: " ++ buildCmd engine (nameP abs) ++ "\n"
        ++ "PDF exists: "
        ++ (if fsA (joinName (parentP abs) (pyStem (nameP abs) ++ ".pdf")) then
              pathStr (joinName (parentP abs) (pyStem (nameP abs) ++ ".pdf"))
            else "NO")
        ++ "\n\n"
        ++ "--- Latexmk log ---\n"
        ++ runner (buildCmd engine (nameP abs)) (parentP abs) ∧
    strContains
      ("PDF exists: "
        ++ (if fsA (joinName (parentP abs) (pyStem (nameP abs) ++ ".pdf")) then
              pathStr (joinName (parentP abs) (pyStem (nameP abs) ++ ".pdf"))
            else "NO")
        ++ "\n")
      (build_latex root g fs runner fsA file engine).1 = true := by
  have heq : (build_latex root g fs runner fsA file engine).1
      = "build_latex finished.\n\n"
        ++ "Working directory: " ++ pathStr (parentP abs) ++ "\n"
        ++ "Command: " ++ buildCmd engine (nameP abs) ++ "\n"
        ++ "PDF exists: "
        ++ (if fsA (joinName (parentP abs) (pyStem (nameP abs) ++ ".pdf")) then
              pathStr (joinName (parentP abs) (pyStem (nameP abs) ++ ".pdf"))
            else "NO")
        ++ "\n\n"
        ++ "--- Latexmk log ---\n"
        ++ runner (buildCmd engine (nameP abs)) (parentP abs) := by
    simp [build_latex, h1, h2]
  refine ⟨heq, ?_⟩
  rw [heq]
  unfold strContains
  simp only [String.data_append]
  apply subOf_append_left
  apply subOf_append_left
  rw [show ∀ q : List Char, q ++ ['\n', '\n'] = (q ++ ['\n']) ++ ['\n'] from
    fun q => by simp]
  apply subOf_append_left
  rw [show ∀ a lp x : List Char,
      ((a ++ lp) ++ x) ++ ['\n'] = a ++ ((lp ++ x) ++ ['\n']) from
    fun a lp x => by simp [List.append_assoc]]
  exact subOf_append_right _ _ _ (subOf_self _)

/-- C7: for every `clean_latex` call that reaches execution, `mode="all"`
produces the deep-clean flag `-C` and `mode="aux"` — the default when the
argument is omitted — produces the lightweight flag `-c`; the two flags are
distinct. -/
theorem C7_clean_mode_flags (root : PPath) (g : String) (fs : PPath → Bool)
    (runner : String → PPath → String) (file : String) (abs : PPath)
    (h1 : resolve_workspace_path root g file = Except.ok abs)
    (h2 : fs abs = true) :
    (clean_latex root g fs runner file Mode.all).2
      = [Effect.fsCheck abs,
         Effect.exec ("latexmk -C \"" ++ nameP abs ++ "\"") (parentP abs)] ∧
    (clean_latex root g fs runner file Mode.aux).2
      = [Effect.fsCheck abs,
         Effect.exec ("latexmk -c \"" ++ nameP abs ++ "\"") (parentP abs)] ∧
    clean_latex root g fs runner file = clean_latex root g fs runner file Mode.aux ∧
    ("-C" : String) ≠ "-c" := by
  refine ⟨?_, ?_, rfl, by decide⟩
  · simp [clean_latex, h1, h2]
    rfl
  · simp [clean_latex, h1, h2]
    rfl

/-- C8: for every input whose resolution succeeds but whose derived `.log`
sibling does not exist, `read_latex_log` returns — without raising — a
guidance report that mentions running the build tool first and appends the
path-guidance text; the `.tex` file's own existence is never consulted
(`fs` is unconstrained off the log path). -/
theorem C8_read_log_guidance (root : PPath) (g : String) (fs : PPath → Bool)
    (rd : PPath → String) (file : String) (abs : PPath)
    (h1 : resolve_workspace_path root g file = Except.ok abs)
    (h2 : fs (joinName (parentP abs) (pyStem (nameP abs) ++ ".log")) = false) :
    (read_latex_log root g fs rd file).1
      = "Log file not found: "
        ++ pathStr (joinName (parentP abs) (pyStem (nameP abs) ++ ".log"))
        ++ "\nYou may need to run build_latex first.\n" ++ g ∧
    strContains "run build_latex first" (read_latex_log root g fs rd file).1 = true ∧
    (read_latex_log root g fs rd file).2
      = [Effect.fsCheck (joinName (parentP abs) (pyStem (nameP abs) ++ ".log"))] := by
  have heq : (read_latex_log root g fs rd file).1
      = "Log file not found: "
        ++ pathStr (joinName (parentP abs) (pyStem (nameP abs) ++ ".log"))
        ++ "\nYou may need to run build_latex first.\n" ++ g := by
    simp [read_latex_log, h1, h2]
  refine ⟨heq, ?_, ?_⟩
  · rw [heq]
    unfold strContains
    simp only [String.data_append]
    apply subOf_append_left
    apply subOf_append_right
    decide
  · simp [read_latex_log, h1, h2]

/-- Witness for C4: the concrete escape `../etc/passwd` under `/workspaces`
and a resolvable but missing file. -/
theorem C4_build_error_short_circuit_witness :
    (∃ r, (build_latex root₀ "G" (fun _ => true) (fun _ _ => "log")
        (fun _ => true) "../etc/passwd" Engine.pdflatex).1 = "ERROR" ++ r) ∧
    (build_latex root₀ "G" (fun _ => true) (fun _ _ => "log")
        (fun _ => true) "../etc/passwd" Engine.pdflatex).2 = [] ∧
    strContains "outside workspace root"
      (build_latex root₀ "G" (fun _ => true) (fun _ _ => "log")
        (fun _ => true) "../etc/passwd" Engine.pdflatex).1 = true ∧
    (∃ r, (build_latex root₀ "G" (fun _ => false) (fun _ _ => "log")
        (fun _ => true) "/workspaces/demo/main.tex" Engine.pdflatex).1
          = "ERROR" ++ r) :=
  ⟨((C4_build_error_short_circuit root₀ "G" (fun _ => true) (fun _ _ => "log")
      (fun _ => true) "../etc/passwd" Engine.pdflatex).1 _ rfl).1,
   ((C4_build_error_short_circuit root₀ "G" (fun _ => true) (fun _ _ => "log")
      (fun _ => true) "../etc/passwd" Engine.pdflatex).1 _ rfl).2,
   (C4_build_error_short_circuit root₀ "G" (fun _ => true) (fun _ _ => "log")
      (fun _ => true) "../etc/passwd" Engine.pdflatex).2.2.1,
   ((C4_build_error_short_circuit root₀ "G" (fun _ => false) (fun _ _ => "log")
      (fun _ => true) "/workspaces/demo/main.tex" Engine.pdflatex).2.1 _ rfl rfl).1⟩

/-- Witness for C5 at `/workspaces/demo/main.tex` with the xelatex engine. -/
theorem C5_build_command_exact_witness :
    (build_latex root₀ "G" (fun _ => true) (fun _ _ => "log") (fun _ => true)
        "/workspaces/demo/main.tex" Engine.xelatex).2
      = [Effect.fsCheck ⟨false, ["workspaces", "demo", "main.tex"]⟩,
         Effect.exec
           "latexmk -synctex=1 -interaction=nonstopmode -file-line-error -pdfxe \"main.tex\""
           ⟨false, ["workspaces", "demo"]⟩,
         Effect.fsCheck ⟨false, ["workspaces", "demo", "main.pdf"]⟩] ∧
    buildCmd Engine.xelatex (nameP ⟨false, ["workspaces", "demo", "main.tex"]⟩)
      = "latexmk -synctex=1 -interaction=nonstopmode -file-line-error "
        ++ engineFlag Engine.xelatex ++ " \""
        ++ nameP ⟨false, ["workspaces", "demo", "main.tex"]⟩ ++ "\"" ∧
    engineFlag Engine.pdflatex = "-pdf" ∧
    engineFlag Engine.xelatex = "-pdfxe" ∧
    engineFlag Engine.lualatex = "-pdflua" ∧
    build_latex root₀ "G" (fun _ => true) (fun _ _ => "log") (fun _ => true)
        "/workspaces/demo/main.tex"
      = build_latex root₀ "G" (fun _ => true) (fun _ _ => "log") (fun _ => true)
        "/workspaces/demo/main.tex" Engine.pdflatex :=
  C5_build_command_exact root₀ "G" (fun _ => true) (fun _ _ => "log")
    (fun _ => true) "/workspaces/demo/main.tex" Engine.xelatex
    ⟨false, ["workspaces", "demo", "main.tex"]⟩ rfl rfl

/-- Witness for C6: the spec's concrete example — root `/workspaces`, input
`/workspaces/demo/main.tex`, engine unset, the sibling `main.pdf` present
after the run. -/
theorem C6_build_pdf_line_witness :
    (build_latex root₀ "G" (fun _ => true) (fun _ _ => "log") (fun _ => true)
        "/workspaces/demo/main.tex" Engine.pdflatex).1
      = "build_latex finished.\n\nWorking directory: /workspaces/demo\nCommand: latexmk -synctex=1 -interaction=nonstopmode -file-line-error -pdf \"main.tex\"\nPDF exists: /workspaces/demo/main.pdf\n\n--- Latexmk log ---\nlog" ∧
    strContains "PDF exists: /workspaces/demo/main.pdf\n"
      (build_latex root₀ "G" (fun _ => true) (fun _ _ => "log") (fun _ => true)
        "/workspaces/demo/main.tex" Engine.pdflatex).1 = true :=
  C6_build_pdf_line root₀ "G" (fun _ => true) (fun _ _ => "log") (fun _ => true)
    "/workspaces/demo/main.tex" Engine.pdflatex
    ⟨false, ["workspaces", "demo", "main.tex"]⟩ rfl rfl

/-- Witness for C7 at `/workspaces/demo/main.tex`. -/
theorem C7_clean_mode_flags_witness :
    (clean_latex root₀ "G" (fun _ => true) (fun _ _ => "log")
        "/workspaces/demo/main.tex" Mode.all).2
      = [Effect.fsCheck ⟨false, ["workspaces", "demo", "main.tex"]⟩,
         Effect.exec "latexmk -C \"main.tex\"" ⟨false, ["workspaces", "demo"]⟩] ∧
    (clean_latex root₀ "G" (fun _ => true) (fun _ _ => "log")
        "/workspaces/demo/main.tex" Mode.aux).2
      = [Effect.fsCheck ⟨false, ["workspaces", "demo", "main.tex"]⟩,
         Effect.exec "latexmk -c \"main.tex\"" ⟨false, ["workspaces", "demo"]⟩] ∧
    clean_latex root₀ "G" (fun _ => true) (fun _ _ => "log")
        "/workspaces/demo/main.tex"
      = clean_latex root₀ "G" (fun _ => true) (fun _ _ => "log")
        "/workspaces/demo/main.tex" Mode.aux ∧
    ("-C" : String) ≠ "-c" :=
  C7_clean_mode_flags root₀ "G" (fun _ => true) (fun _ _ => "log")
    "/workspaces/demo/main.tex" ⟨false, ["workspaces", "demo", "main.tex"]⟩
    rfl rfl

/-- Witness for C8 at `/workspaces/demo/main.tex` with no `.log` present. -/
theorem C8_read_log_guidance_witness :
    (read_latex_log root₀ "G" (fun _ => false) (fun _ => "") "/workspaces/demo/main.tex").1
      = "Log file not found: /workspaces/demo/main.log\nYou may need to run build_latex first.\nG" ∧
    strContains "run build_latex first"
      (read_latex_log root₀ "G" (fun _ => false) (fun _ => "")
        "/workspaces/demo/main.tex").1 = true ∧
    (read_latex_log root₀ "G" (fun _ => false) (fun _ => "")
        "/workspaces/demo/main.tex").2
      = [Effect.fsCheck ⟨false, ["workspaces", "demo", "main.log"]⟩] :=
  C8_read_log_guidance root₀ "G" (fun _ => false) (fun _ => "")
    "/workspaces/demo/main.tex" ⟨false, ["workspaces", "demo", "main.tex"]⟩
    rfl rfl
